import Mathlib

/-!
Verification of the outbound activity queue of activitypub-federation-rust.

The development shallowly embeds the queue code found under `src/`:
* `src/activity_queue.rs` — the tokio worker queue (namespace `MainQueue` for
  its `send`, plus the top-level `retry`, `worker` and `ActivityQueue` models);
* `src/queue/request.rs` — the later refactor (namespace `QueueRequest`);
* the `deliver` adapter `send_activity` from `src/activity_queue.rs`.

Machine integers: the atomic `usize` counters (`last_sender_idx`, the four
stats counters) wrap on `fetch_add`/`fetch_sub`; they are modelled as `Nat`
with explicit reduction modulo `2 ^ 64` (`usizeMod`).  The backoff sleep
amount `strategy.backoff.pow(count)` is likewise a `usize` computation that
wraps at `2 ^ 64` in release builds (a debug build panics on overflow); it
is modelled as the wrapped value `b ^ count % usizeMod`.
-/

/-- The modulus of a 64-bit `usize`; atomic `fetch_add`/`fetch_sub` wrap at
this bound. -/
def usizeMod : Nat := 2 ^ 64

/-- Wrapping increment, as performed by `AtomicUsize::fetch_add(1, _)`. -/
def usizeSucc (n : Nat) : Nat := (n + 1) % usizeMod

/-- Wrapping decrement, as performed by `AtomicUsize::fetch_sub(1, _)`. -/
def usizePred (n : Nat) : Nat := (n + (usizeMod - 1)) % usizeMod

/-- `RetryStrategy` from `src/activity_queue.rs`: `backoff` is the base of the
exponential backoff in seconds, `retries` the number of retries after the
first attempt. -/
structure RetryStrategy where
  backoff : Nat
  retries : Nat
deriving DecidableEq

/-- The body of the `retry` loop of `src/activity_queue.rs` (lines 389-413).
`action i` is the result of the `i`-th invocation of the action factory
(attempts counted from 0); `remaining = strategy.retries - count` is the number
of retries still allowed.  Returns the final result, the number of times the
action was invoked, and the list of sleep durations (in seconds) performed
between consecutive attempts.  The sleep before retry number `count` is
`backoff.pow(count)` seconds computed on a `usize`, which wraps at `2 ^ 64`
on overflow in release builds (a debug build would panic): the wrapped value
`b ^ count % usizeMod` is what the source sleeps. -/
def retryFrom (action : Nat → Except E T) (b : Nat) :
    Nat → Nat → Except E T × Nat × List Nat
  | idx, remaining =>
    match action idx, remaining with
    | .ok v, _ => (.ok v, 1, [])
    | .error e, 0 => (.error e, 1, [])
    | .error _, r + 1 =>
      let rest := retryFrom action b (idx + 1) r
      (rest.1, rest.2.1 + 1, (b ^ (idx + 1)) % usizeMod :: rest.2.2)

/-- `retry(action, strategy)` from `src/activity_queue.rs`: start with
`count = 0` and `strategy.retries` retries remaining. -/
def retry (action : Nat → Except E T) (strategy : RetryStrategy) :
    Except E T × Nat × List Nat :=
  retryFrom action strategy.backoff 0 strategy.retries

deriving instance DecidableEq for Except

/-- Errors returned by `ClientWithMiddleware::execute` (a transport/IO failure:
the client returned `Err` rather than any HTTP response). -/
inductive TransportErr
  | connectionRefused
  | timedOut
  | other (msg : String)
deriving DecidableEq

/-- An HTTP response as observed by `send`: its status code, and the result of
reading its body through the size-limited `text_limited` shim (which returns
`Err` when the body read fails). -/
structure HttpResponse where
  status : Nat
  bodyText : Except String String
deriving DecidableEq

/-- `StatusCode::is_success`: 200 ≤ status ≤ 299. -/
def isSuccessStatus (s : Nat) : Bool := 200 ≤ s && s ≤ 299

/-- `StatusCode::is_client_error`: 400 ≤ status ≤ 499. -/
def isClientErrorStatus (s : Nat) : Bool := 400 ≤ s && s ≤ 499

/-- The errors a `send` routine can produce. -/
inductive SendErr
  | bodyReadFailed (msg : String)
  | retryableStatus (status : Nat) (body : String)
  | connectionFailed (e : TransportErr)
deriving DecidableEq

/-- Bool-valued `Except.isOk`. -/
def exOk : Except ε α → Bool
  | .ok _ => true
  | .error _ => false

namespace MainQueue

/-- The response classification of `send` in `src/activity_queue.rs`
(lines 151-193), as a function of the result of `client.execute(request)`:
2xx → `Ok`; 4xx → read the body (propagating a body-read error), then `Ok`;
any other status → read the body and return `Err`; transport error → `Ok`
(logged "Unable to connect …, aborting task"). -/
def send (response : Except TransportErr HttpResponse) : Except SendErr Unit :=
  match response with
  | .ok o =>
    if isSuccessStatus o.status then .ok ()
    else if isClientErrorStatus o.status then
      match o.bodyText with
      | .ok _ => .ok ()
      | .error m => .error (.bodyReadFailed m)
    else
      match o.bodyText with
      | .ok t => .error (.retryableStatus o.status t)
      | .error m => .error (.bodyReadFailed m)
  | .error _ => .ok ()

end MainQueue

namespace QueueRequest

/-- The response classification of `send` in `src/queue/request.rs`
(lines 65-106).  Identical to `MainQueue.send` except for the transport-error
arm, which returns `Err` ("Queueing activity … for retry after connection
failure"). -/
def send (response : Except TransportErr HttpResponse) : Except SendErr Unit :=
  match response with
  | .ok o =>
    if isSuccessStatus o.status then .ok ()
    else if isClientErrorStatus o.status then
      match o.bodyText with
      | .ok _ => .ok ()
      | .error m => .error (.bodyReadFailed m)
    else
      match o.bodyText with
      | .ok t => .error (.retryableStatus o.status t)
      | .error m => .error (.bodyReadFailed m)
  | .error e => .error (.connectionFailed e)

end QueueRequest

/-- The four stats counters of `src/activity_queue.rs` (`struct Stats`).
Each is an `AtomicUsize`. -/
structure Stats where
  pending : Nat
  running : Nat
  dead_last_hour : Nat
  completed_last_hour : Nat
deriving DecidableEq

/-- The body of the worker loop in `src/activity_queue.rs` (lines 251-276) for
one received message: decrement `pending`, increment `running`, drive
`sign_and_send` through `retry`, decrement `running`, then increment
`completed_last_hour` on `Ok` and `dead_last_hour` on `Err`.
`execution i` is the result of the HTTP execution of attempt `i` (the
signature step of `sign_and_send` is taken to succeed).  Returns the updated
stats and the number of attempts made (`recordOutcome` is the final
match on the retry outcome at lines 267-274). -/
def recordOutcome (st : Stats) (outcome : Except SendErr Unit) : Stats :=
  match outcome with
  | .ok _ => { st with completed_last_hour := usizeSucc st.completed_last_hour }
  | .error _ => { st with dead_last_hour := usizeSucc st.dead_last_hour }

/-- One worker-loop iteration: see `recordOutcome`'s doc comment. -/
def workerStep (strategy : RetryStrategy)
    (execution : Nat → Except TransportErr HttpResponse) (stats : Stats) :
    Stats × Nat :=
  let stats1 : Stats :=
    { stats with
        pending := usizePred stats.pending
        running := usizeSucc stats.running }
  let outcome := retry (fun i => MainQueue.send (execution i)) strategy
  let stats2 : Stats := { stats1 with running := usizePred stats1.running }
  (recordOutcome stats2 outcome.1, outcome.2.1)

/-- Replace the element at position `i` (no-op when out of range), as
`self.senders[idx_to_send]` selects the channel to mutate. -/
def modifyAt : Nat → (α → α) → List α → List α
  | _, _, [] => []
  | 0, f, a :: as => f a :: as
  | j + 1, f, a :: as => a :: modifyAt j f as

/-- The state of an `ActivityQueue` (`src/activity_queue.rs` lines 220-229):
the round-robin cursor `last_sender_idx`, the shared `pending` counter, and
the per-worker channels.  `closed` models the workers' receivers having been
dropped, which makes `UnboundedSender::send` fail. -/
structure QueueModel (α : Type) where
  lastSenderIdx : Nat
  pending : Nat
  closed : Bool
  senders : List (List α)

/-- The channel index used by the next `queue` call:
`self.last_sender_idx.fetch_add(1, _) % self.senders.len()` (line 325). -/
def sentChannelIdx (q : QueueModel α) : Nat :=
  q.lastSenderIdx % q.senders.length

/-- `ActivityQueue::queue` (lines 323-334): compute the round-robin index via
a wrapping `fetch_add`, increment `pending`, then send on that channel; if the
channel is closed the send error is propagated by `?` and nothing is rolled
back. -/
def queueOp (q : QueueModel α) (msg : α) : QueueModel α × Except Unit Unit :=
  let idx := sentChannelIdx q
  let q1 : QueueModel α :=
    { q with
        lastSenderIdx := (q.lastSenderIdx + 1) % usizeMod
        pending := usizeSucc q.pending }
  if q.closed then (q1, .error ())
  else
    ({ q1 with senders := modifyAt idx (fun ch => ch ++ [msg]) q1.senders },
      .ok ())

/-- A freshly constructed queue: cursor `AtomicUsize::new(0)`, `N` empty
worker channels, workers alive. -/
def freshQueue (α : Type) (N : Nat) : QueueModel α :=
  ⟨0, 0, false, List.replicate N []⟩

/-- Submit a list of messages in order. -/
def submitSeq (q : QueueModel α) (msgs : List α) : QueueModel α :=
  msgs.foldl (fun st m => (queueOp st m).1) q

/-- The host component of a parsed `url::Url`: either a registrable domain
name or an IP address.  `Url::domain()` returns `Some` only for the `domain`
case. -/
inductive UrlHost
  | domain (s : String)
  | ipv4 (s : String)
  | ipv6 (s : String)
deriving DecidableEq

/-- The textual host as `Url::host_str()` renders it. -/
def UrlHost.hostText : UrlHost → String
  | .domain s => s
  | .ipv4 s => s
  | .ipv6 s => "[" ++ s ++ "]"

/-- A parsed `url::Url` as consumed by the queue: scheme, host, optional
explicit port (the url crate drops a port equal to the scheme default during
parsing, so `port = some p` means an explicit non-default port), and path. -/
structure Url where
  scheme : String
  host : UrlHost
  port : Option Nat
  path : String
deriving DecidableEq

/-- `Url::domain()`. -/
def Url.urlDomain : Url → Option String
  | u => match u.host with
    | .domain s => some s
    | _ => none

/-- `FEDERATION_CONTENT_TYPE` from `src/lib.rs`. -/
def FEDERATION_CONTENT_TYPE : String := "application/activity+json"

/-- `generate_request_headers` from `src/activity_queue.rs` (lines 195-215)
and `src/queue/request.rs` (lines 108-128): reads
`inbox_url.domain().expect("read inbox domain")` — modelled as `none` (the
function panics and produces no header map) when the host is not a domain
name — then appends `:port` when `Url::port()` is `Some`, and inserts
`content-type`, `host` and `date` (`now` stands for
`fmt_http_date(SystemTime::now())`). -/
def generate_request_headers (now : String) (inbox_url : Url) :
    Option (List (String × String)) :=
  match inbox_url.urlDomain with
  | none => none
  | some d =>
    let host := match inbox_url.port with
      | some p => d ++ ":" ++ toString p
      | none => d
    some [("content-type", FEDERATION_CONTENT_TYPE),
          ("host", host),
          ("date", now)]

/-- `SendActivityTask` from `src/activity_queue.rs` (lines 119-127).  The
parsed private key handle is opaque and modelled as a `Nat` identifier. -/
structure SendActivityTask where
  actor_id : Url
  activity_id : Url
  activity : String
  inbox : Url
  private_key : Nat
  http_signature_compat : Bool
deriving DecidableEq

/-- The error paths of `send_activity` in `src/activity_queue.rs`
(lines 47-117): serialization failure, "Actor … does not contain a private
key for signing", "Could not create private key from PEM data", and a failed
`activity_queue.queue` submit. -/
inductive DeliverErr
  | serializationFailed (msg : String)
  | missingPrivateKey (actorId : Url)
  | invalidPrivateKey (msg : String)
  | queueClosed
deriving DecidableEq

/-- `itertools::unique()`: deduplicate keeping the first occurrence of each
element, preserving order. -/
def uniqueFirstAux [DecidableEq α] (seen : List α) : List α → List α
  | [] => []
  | a :: as =>
    if a ∈ seen then uniqueFirstAux seen as
    else a :: uniqueFirstAux (a :: seen) as

/-- `inboxes.into_iter().unique()` from `src/activity_queue.rs` line 75. -/
def uniqueFirst [DecidableEq α] (l : List α) : List α := uniqueFirstAux [] l

/-- The per-inbox loop of `send_activity` (lines 84-114): skip inboxes that
fail `verify_url_valid`, build the task, and submit it; a submit failure is
propagated by `?`, aborting the loop.  Returns the adapter result and the
list of tasks accepted by the queue, in submission order. -/
def deliverLoop (verify : Url → Bool) (submit : SendActivityTask → Except Unit Unit)
    (mk : Url → SendActivityTask) : List Url → Except DeliverErr Unit × List SendActivityTask
  | [] => (.ok (), [])
  | i :: rest =>
    if verify i then
      match submit (mk i) with
      | .error _ => (.error .queueClosed, [])
      | .ok _ =>
        let r := deliverLoop verify submit mk rest
        (r.1, mk i :: r.2)
    else deliverLoop verify submit mk rest

/-- The tail of `send_activity` from the PEM-parse step on (lines 68-114 of
`src/activity_queue.rs`): `keyResult` is the result of
`PKey::private_key_from_pem`; on success, deduplicate the inboxes keeping
first occurrences, drop local inboxes, then run the per-inbox
verify/build/submit loop. -/
def sendActivityWithKey (actorId activityId : Url) (body : String)
    (keyResult : Except String Nat) (isLocal : Url → Bool)
    (verify : Url → Bool) (submit : SendActivityTask → Except Unit Unit)
    (compat : Bool) (inboxes : List Url) :
    Except DeliverErr Unit × List SendActivityTask :=
  match keyResult with
  | .error m => (.error (.invalidPrivateKey m), [])
  | .ok key =>
    let remaining := (uniqueFirst inboxes).filter (fun i => !isLocal i)
    deliverLoop verify submit
      (fun i => ⟨actorId, activityId, body, i, key, compat⟩) remaining

/-- `send_activity` from `src/activity_queue.rs` (lines 47-117): serialize the
activity (`serde_json::to_vec` result is the `serialized` argument), require
the actor's PEM key (`MissingPrivateKey`), parse it (`InvalidPrivateKey`,
via `sendActivityWithKey`), then build and submit the per-inbox tasks.
Returns the result and the tasks accepted by the queue. -/
def send_activity (actorId activityId : Url)
    (serialized : Except String String) (privateKeyPem : Option String)
    (parseKey : String → Except String Nat) (isLocal : Url → Bool)
    (verify : Url → Bool) (submit : SendActivityTask → Except Unit Unit)
    (compat : Bool) (inboxes : List Url) :
    Except DeliverErr Unit × List SendActivityTask :=
  match serialized with
  | .error m => (.error (.serializationFailed m), [])
  | .ok body =>
    match privateKeyPem with
    | none => (.error (.missingPrivateKey actorId), [])
    | some pem =>
      sendActivityWithKey actorId activityId body (parseKey pem) isLocal
        verify submit compat inboxes

/-- Example inbox URL used by concrete checks. -/
def urlA : Url := ⟨"https", .domain "a.example", none, "/inbox"⟩

/-- Example inbox URL used by concrete checks. -/
def urlB : Url := ⟨"https", .domain "b.example", none, "/inbox"⟩

/-- Example inbox URL used by concrete checks. -/
def urlC : Url := ⟨"https", .domain "c.example", none, "/inbox"⟩

/-- Example local inbox URL used by concrete checks. -/
def urlLocal : Url := ⟨"https", .domain "local.example", none, "/inbox"⟩

/-- A request produced by the external signer `sign_request`
(`crate::http_signatures`): the signature covers the headers of §6.2,
including the `Date` header, so the moment of signing (`date`) is baked into
the signed request. -/
structure SignedRequest where
  inboxText : String
  body : String
  date : Nat
deriving DecidableEq

/-- `sign_request(request_builder, actor_id, activity, private_key, compat)`:
modelled by the data the signature commits to — the inbox, the body, and the
`Date` header generated at signing time. -/
def sign_request (inboxText body : String) (now : Nat) : SignedRequest :=
  ⟨inboxText, body, now⟩

/-- The `retry` loop instrumented with the signed request used by each
attempt: `action i` yields the result of attempt `i` together with the
request that attempt sent.  Same control flow as `retryFrom`. -/
def retryTraceFrom (action : Nat → Except E T × SignedRequest) :
    Nat → Nat → Except E T × Nat × List SignedRequest
  | idx, 0 =>
    match action idx with
    | (.ok v, req) => (.ok v, 1, [req])
    | (.error e, req) => (.error e, 1, [req])
  | idx, r + 1 =>
    match action idx with
    | (.ok v, req) => (.ok v, 1, [req])
    | (.error _, req) =>
      let rest := retryTraceFrom action (idx + 1) r
      (rest.1, rest.2.1 + 1, req :: rest.2.2)

/-- `retry` with per-attempt request tracing. -/
def retryTrace (action : Nat → Except E T × SignedRequest)
    (strategy : RetryStrategy) : Except E T × Nat × List SignedRequest :=
  retryTraceFrom action 0 strategy.retries

namespace MainQueue

/-- The worker pipeline of `src/activity_queue.rs` (line 262):
`retry(|| sign_and_send(&message, &client, timeout), strategy)` — the retried
action is `sign_and_send` itself, so every attempt regenerates the request
headers (`Date` from `clock i`) and re-signs before sending.  `exec` gives
the HTTP execution outcome of the signed request at each attempt. -/
def runTask (inboxText body : String) (clock : Nat → Nat)
    (exec : Nat → SignedRequest → Except TransportErr HttpResponse)
    (strategy : RetryStrategy) :
    Except SendErr Unit × Nat × List SignedRequest :=
  retryTrace (fun i =>
    ((fun req => (send (exec i req), req)) (sign_request inboxText body (clock i))))
    strategy

end MainQueue

namespace QueueRequest

/-- `sign_and_send` of `src/queue/request.rs` (lines 23-63): generate headers
and sign once (at `clock 0`), then `retry(|| send(message, client,
request.try_clone()))` — every attempt sends a clone of that one signed
request. -/
def sign_and_send (inboxText body : String) (clock : Nat → Nat)
    (exec : Nat → SignedRequest → Except TransportErr HttpResponse)
    (strategy : RetryStrategy) :
    Except SendErr Unit × Nat × List SignedRequest :=
  (fun request => retryTrace (fun i => (send (exec i request), request)) strategy)
    (sign_request inboxText body (clock 0))

end QueueRequest

/-- Whether the retry-driven delivery of a task terminates with `Ok`
(counted as completed) rather than exhausting its retries (counted as dead),
given the per-attempt HTTP execution outcomes of that task. -/
def taskOk (strategy : RetryStrategy)
    (attempts : α → Nat → Except TransportErr HttpResponse) (t : α) : Bool :=
  exOk (retry (fun i => MainQueue.send (attempts t i)) strategy).1

/-- A worker draining its channel after the senders are dropped
(`while let Some(message) = receiver.recv().await` in
`src/activity_queue.rs`): process each queued message in FIFO order. -/
def workerDrain (strategy : RetryStrategy)
    (attempts : α → Nat → Except TransportErr HttpResponse) (st : Stats)
    (ch : List α) : Stats :=
  ch.foldl (fun s t => (workerStep strategy (attempts t) s).1) st

/-- A complete run of the queue of `src/activity_queue.rs`: submit `tasks` in
order to a fresh `N`-worker queue (each submit incrementing `pending` and
round-robin-dispatching to a channel), then shut down: the senders are
dropped and each worker drains its channel into the shared stats, which
started with the completed/dead counters at zero (no hourly reset fires).
`attempts t i` is the HTTP execution outcome of attempt `i` of task `t`. -/
def runStats {α : Type} (N : Nat) (strategy : RetryStrategy)
    (attempts : α → Nat → Except TransportErr HttpResponse)
    (tasks : List α) : Stats :=
  ((submitSeq (freshQueue α N) tasks).senders).foldl
    (workerDrain strategy attempts)
    { pending := (submitSeq (freshQueue α N) tasks).pending
      running := 0
      dead_last_hour := 0
      completed_last_hour := 0 }

lemma retryFrom_all_fail (errs : Nat → E) (b : Nat) :
    ∀ (r idx : Nat),
      retryFrom (T := T) (fun i => .error (errs i)) b idx r =
        (.error (errs (idx + r)), r + 1,
          (List.range r).map (fun j => (b ^ (idx + 1 + j)) % usizeMod)) := by
  intro r
  induction r with
  | zero => intro idx; rfl
  | succ r ih =>
    intro idx
    have step : retryFrom (T := T) (fun i => .error (errs i)) b idx (r + 1) =
        ((retryFrom (T := T) (fun i => .error (errs i)) b (idx + 1) r).1,
         (retryFrom (T := T) (fun i => .error (errs i)) b (idx + 1) r).2.1 + 1,
         (b ^ (idx + 1)) % usizeMod ::
           (retryFrom (T := T) (fun i => .error (errs i)) b (idx + 1) r).2.2) := rfl
    rw [step, ih (idx + 1)]
    refine Prod.ext ?_ (Prod.ext ?_ ?_)
    · show Except.error (errs (idx + 1 + r)) = Except.error (errs (idx + (r + 1)))
      have h : idx + 1 + r = idx + (r + 1) := by omega
      rw [h]
    · rfl
    · show (b ^ (idx + 1)) % usizeMod ::
          (List.range r).map (fun j => (b ^ (idx + 1 + 1 + j)) % usizeMod) =
        (List.range (r + 1)).map (fun j => (b ^ (idx + 1 + j)) % usizeMod)
      rw [List.range_succ_eq_map, List.map_cons, List.map_map]
      refine congrArg₂ _ (by norm_num) ?_
      refine List.map_congr_left ?_
      intro j _
      simp only [Function.comp, Nat.succ_eq_add_one]
      have h : idx + 1 + 1 + j = idx + 1 + (j + 1) := by omega
      rw [h]

/-- C1 counterexample: the per-retry sleep is `strategy.backoff.pow(count)`
computed on a `usize`, which wraps at `2^64` (release-build semantics; a
debug build panics on the overflow).  With backoff `2^32` and two retries
against an always-failing action, the second sleep is
`(2^32)^2 mod 2^64 = 0` seconds, not the claimed `(2^32)^2` seconds: the
universally quantified schedule `b^1, …, b^k` is false of the program. -/
theorem retry_sleep_wraps_at_usize :
    (retry (T := Unit) (fun i => .error i) ⟨2 ^ 32, 2⟩).2.2 ≠
      [(2 ^ 32) ^ 1, (2 ^ 32) ^ 2] := by
  decide

/-- C1 (amended): with initial backoff `b` and `max_retries = k`, running
`retry` on an action factory whose action fails on every invocation invokes
the action exactly `k + 1` times and returns the error of the last attempt;
the sleeps between consecutive attempts (none after the final attempt) are
the wrapping `usize` values `b^1 mod 2^64, …, b^k mod 2^64`, which are
exactly the claimed `b^1, …, b^k` whenever `b^k < 2^64`. -/
theorem retry_always_failing_action (b k : Nat) (errs : Nat → E)
    (action : Nat → Except E T) (h : ∀ i, action i = .error (errs i)) :
    retry action ⟨b, k⟩ =
      (.error (errs k), k + 1,
        (List.range k).map (fun j => (b ^ (j + 1)) % usizeMod))
    ∧ (b ^ k < usizeMod →
        retry action ⟨b, k⟩ =
          (.error (errs k), k + 1,
            (List.range k).map (fun j => b ^ (j + 1)))) := by
  have hact : action = fun i => Except.error (errs i) := funext h
  subst hact
  have hmain : retry (fun i => Except.error (α := T) (errs i)) ⟨b, k⟩ =
      (.error (errs k), k + 1,
        (List.range k).map (fun j => (b ^ (j + 1)) % usizeMod)) := by
    rw [retry, retryFrom_all_fail]
    refine congrArg₂ _ (by norm_num) (congrArg₂ _ rfl ?_)
    refine List.map_congr_left ?_
    intro j _
    have h2 : 0 + 1 + j = j + 1 := by omega
    rw [h2]
  refine ⟨hmain, fun hbk => ?_⟩
  rw [hmain]
  refine congrArg₂ _ rfl (congrArg₂ _ rfl ?_)
  refine List.map_congr_left ?_
  intro j hj
  rw [List.mem_range] at hj
  have hle : b ^ (j + 1) ≤ b ^ k := by
    rcases Nat.eq_zero_or_pos b with hb | hb
    · subst hb
      cases k with
      | zero => exact absurd hj (by omega)
      | succ k2 =>
        have h1 : (0 : Nat) ^ (j + 1) = 0 := by simp
        have h2 : (0 : Nat) ^ (k2 + 1) = 0 := by simp
        rw [h1, h2]
    · exact Nat.pow_le_pow_right hb (by omega)
  exact Nat.mod_eq_of_lt (lt_of_le_of_lt hle hbk)

/-- Concrete check of `retry_always_failing_action`: base 2, three retries,
the action failing with its attempt index as the error; `2^3 < 2^64`, so the
sleeps are exactly 2, 4, 8 seconds. -/
theorem retry_always_failing_action_example :
    retry (T := Unit) (fun i => .error i) ⟨2, 3⟩ = (.error 3, 4, [2, 4, 8]) := by
  rw [(retry_always_failing_action 2 3 (fun i => i) _ (fun _ => rfl)).2
    (by decide)]
  rfl

lemma usizePred_usizeSucc (n : Nat) (h : n < usizeMod) :
    usizePred (usizeSucc n) = n := by
  unfold usizePred usizeSucc usizeMod at *
  omega

lemma retryFrom_first_ok (action : Nat → Except E T) (b : Nat) (v : T)
    (idx : Nat) (h : action idx = .ok v) :
    ∀ rem, retryFrom action b idx rem = (.ok v, 1, []) := by
  intro rem
  cases rem with
  | zero => rw [retryFrom]; rw [h]
  | succ r => rw [retryFrom]; rw [h]

/-- If the first attempt returns `Ok`, the whole retry loop stops there. -/
lemma retry_first_ok (action : Nat → Except E T) (v : T)
    (strategy : RetryStrategy) (h : action 0 = .ok v) :
    retry action strategy = (.ok v, 1, []) :=
  retryFrom_first_ok action strategy.backoff v 0 h strategy.retries

/-- A worker message whose first attempt's `send` returns `Ok` consumes exactly
one attempt and is counted in `completed_last_hour`. -/
lemma workerStep_first_ok (strategy : RetryStrategy)
    (execution : Nat → Except TransportErr HttpResponse) (stats : Stats)
    (h : MainQueue.send (execution 0) = .ok ())
    (hrun : stats.running < usizeMod) :
    workerStep strategy execution stats =
      ({ pending := usizePred stats.pending
         running := stats.running
         dead_last_hour := stats.dead_last_hour
         completed_last_hour := usizeSucc stats.completed_last_hour }, 1) := by
  unfold workerStep
  rw [retry_first_ok _ _ _ h]
  simp only []
  rw [usizePred_usizeSucc _ hrun]
  rfl

lemma isSuccess_false_of_isClientError (s : Nat)
    (h : isClientErrorStatus s = true) : isSuccessStatus s = false := by
  cases hs : isSuccessStatus s with
  | false => rfl
  | true =>
    exfalso
    simp only [isClientErrorStatus, isSuccessStatus, Bool.and_eq_true,
      decide_eq_true_eq] at h hs
    omega

/-- C2 counterexample: in `src/queue/request.rs` (lines 99-105), a transport/IO
error from the client makes `send` return `Err` ("Queueing activity … for
retry after connection failure"), not `Ok`: so the claim that the send routine
returns `Ok` on a transport error is false for that send routine. -/
theorem transport_error_retried_in_queue_request :
    QueueRequest.send (.error .connectionRefused) =
      .error (.connectionFailed .connectionRefused) := rfl

/-- C2 (amended): in `src/activity_queue.rs`, a transport/IO error makes
`send` return `Ok`, so the retry driver stops after that single attempt and
the worker increments `completed_last_hour` exactly once (and no other
terminal counter); in `src/queue/request.rs`, by contrast, `send` returns a
connection-failure error, so there the attempt is retried. -/
theorem transport_error_worker_outcome (strategy : RetryStrategy)
    (stats : Stats) (execution : Nat → Except TransportErr HttpResponse)
    (e : TransportErr) (h0 : execution 0 = .error e)
    (hrun : stats.running < usizeMod) :
    workerStep strategy execution stats =
      ({ pending := usizePred stats.pending
         running := stats.running
         dead_last_hour := stats.dead_last_hour
         completed_last_hour := usizeSucc stats.completed_last_hour }, 1)
    ∧ ∀ e2 : TransportErr,
        QueueRequest.send (.error e2) = .error (.connectionFailed e2) := by
  refine ⟨?_, fun e2 => rfl⟩
  apply workerStep_first_ok _ _ _ _ hrun
  rw [h0]
  rfl

/-- Concrete check of `transport_error_worker_outcome`. -/
theorem transport_error_worker_outcome_check :
    workerStep ⟨60, 3⟩ (fun _ => .error .connectionRefused) ⟨5, 2, 1, 7⟩ =
      (⟨4, 2, 1, 8⟩, 1) := by
  have h := (transport_error_worker_outcome ⟨60, 3⟩ ⟨5, 2, 1, 7⟩
    (fun _ => .error .connectionRefused) .connectionRefused rfl (by decide)).1
  rw [h]
  decide

/-- C3 counterexample: a response with 4xx status whose bounded body read
fails makes `send` in `src/activity_queue.rs` return `Err` (the
`text_limited` error is propagated by `?`), not `Ok`: so the claim that every
4xx response yields `Ok` on the first attempt is false. -/
theorem client_error_body_read_failure_not_ok :
    MainQueue.send (.ok ⟨403, .error "connection reset"⟩) =
      .error (.bodyReadFailed "connection reset") := rfl

/-- C3 (amended): for a response with 4xx status whose bounded body read
succeeds, `send` returns `Ok` on the first attempt, the retry driver invokes
the action exactly once, and the worker increments `completed_last_hour`
(never `dead_last_hour`); if instead the body read of the 4xx response fails,
`send` returns `Err` and the attempt is retried. -/
theorem client_error_worker_outcome (strategy : RetryStrategy) (stats : Stats)
    (execution : Nat → Except TransportErr HttpResponse) (o : HttpResponse)
    (t : String) (h0 : execution 0 = .ok o)
    (hce : isClientErrorStatus o.status = true) (hb : o.bodyText = .ok t)
    (hrun : stats.running < usizeMod) :
    workerStep strategy execution stats =
      ({ pending := usizePred stats.pending
         running := stats.running
         dead_last_hour := stats.dead_last_hour
         completed_last_hour := usizeSucc stats.completed_last_hour }, 1)
    ∧ ∀ (o2 : HttpResponse) (m : String), isClientErrorStatus o2.status = true →
        o2.bodyText = .error m →
        MainQueue.send (.ok o2) = .error (.bodyReadFailed m) := by
  constructor
  · apply workerStep_first_ok _ _ _ _ hrun
    rw [h0]
    simp [MainQueue.send, isSuccess_false_of_isClientError _ hce, hce, hb]
  · intro o2 m hce2 hb2
    simp [MainQueue.send, isSuccess_false_of_isClientError _ hce2, hce2, hb2]

/-- Concrete check of `client_error_worker_outcome`. -/
theorem client_error_worker_outcome_check :
    workerStep ⟨1, 5⟩ (fun _ => .ok ⟨403, .ok "Forbidden"⟩) ⟨3, 1, 0, 2⟩ =
      (⟨2, 1, 0, 3⟩, 1) := by
  have h := (client_error_worker_outcome ⟨1, 5⟩ ⟨3, 1, 0, 2⟩
    (fun _ => .ok ⟨403, .ok "Forbidden"⟩) ⟨403, .ok "Forbidden"⟩ "Forbidden"
    rfl (by decide) rfl (by decide)).1
  rw [h]
  decide

lemma usizeMod_eq : usizeMod = 18446744073709551616 := by norm_num [usizeMod]

lemma modifyAt_length (f : α → α) : ∀ (i : Nat) (l : List α),
    (modifyAt i f l).length = l.length := by
  intro i l
  induction l generalizing i with
  | nil => cases i <;> rfl
  | cons a as ih =>
    cases i with
    | zero => rfl
    | succ j => show (a :: modifyAt j f as).length = _; simp [ih j]

lemma modifyAt_getElem (f : α → α) : ∀ (i : Nat) (l : List α) (j : Nat),
    (modifyAt i f l)[j]? = if j = i then l[j]?.map f else l[j]? := by
  intro i l
  induction l generalizing i with
  | nil => intro j; cases i <;> simp [modifyAt]
  | cons a as ih =>
    intro j
    cases i with
    | zero =>
      cases j with
      | zero => simp [modifyAt]
      | succ j2 => simp [modifyAt]
    | succ i2 =>
      cases j with
      | zero => simp [modifyAt]
      | succ j2 =>
        show (a :: modifyAt i2 f as)[j2 + 1]? = _
        simp only [List.getElem?_cons_succ, ih i2 j2]
        by_cases hj : j2 = i2
        · simp [hj]
        · simp [hj, fun h => hj (Nat.succ_injective h)]

lemma queueOp_lastSenderIdx (q : QueueModel α) (m : α) :
    (queueOp q m).1.lastSenderIdx = (q.lastSenderIdx + 1) % usizeMod := by
  cases hq : q.closed <;> simp [queueOp, hq]

lemma queueOp_senders_length (q : QueueModel α) (m : α) :
    (queueOp q m).1.senders.length = q.senders.length := by
  cases hq : q.closed <;> simp [queueOp, hq, modifyAt_length]

lemma queueOp_closed (q : QueueModel α) (m : α) :
    (queueOp q m).1.closed = q.closed := by
  cases hq : q.closed <;> simp [queueOp, hq]

lemma submitSeq_state (msgs : List α) : ∀ q : QueueModel α,
    q.lastSenderIdx < usizeMod →
    (submitSeq q msgs).lastSenderIdx =
        (q.lastSenderIdx + msgs.length) % usizeMod
    ∧ (submitSeq q msgs).senders.length = q.senders.length
    ∧ (submitSeq q msgs).closed = q.closed := by
  induction msgs with
  | nil =>
    intro q hq
    exact ⟨(Nat.mod_eq_of_lt hq).symm, rfl, rfl⟩
  | cons m rest ih =>
    intro q hq
    have hstep : submitSeq q (m :: rest) = submitSeq (queueOp q m).1 rest := rfl
    have hlt : (q.lastSenderIdx + 1) % usizeMod < usizeMod :=
      Nat.mod_lt _ (by rw [usizeMod_eq]; omega)
    have h := ih (queueOp q m).1 (by rw [queueOp_lastSenderIdx]; exact hlt)
    refine ⟨?_, ?_, ?_⟩
    · rw [hstep, h.1, queueOp_lastSenderIdx]
      rw [usizeMod_eq] at *
      have hl : rest.length + 1 = (m :: rest).length := rfl
      omega
    · rw [hstep, h.2.1, queueOp_senders_length]
    · rw [hstep, h.2.2, queueOp_closed]

lemma submit_fill (N : Nat) (hNW : N < usizeMod) :
    ∀ (msgs : List α) (q : QueueModel α), q.closed = false →
      q.senders.length = N → q.lastSenderIdx + msgs.length ≤ N →
      ∀ j : Nat,
        (submitSeq q msgs).senders[j]? =
          (q.senders[j]?).map (fun ch =>
            ch ++ (if q.lastSenderIdx ≤ j then
              (msgs[j - q.lastSenderIdx]?).toList else [])) := by
  intro msgs
  induction msgs with
  | nil =>
    intro q _ _ _ j
    show q.senders[j]? = _
    cases hg : q.senders[j]? <;> simp [ite_self]
  | cons m rest ih =>
    intro q hc hlen hle j
    simp only [List.length_cons] at hle
    have hsN : q.lastSenderIdx < N := by omega
    have hs1 : (q.lastSenderIdx + 1) % usizeMod = q.lastSenderIdx + 1 :=
      Nat.mod_eq_of_lt (lt_of_le_of_lt (by omega) hNW)
    have hmod : q.lastSenderIdx % q.senders.length = q.lastSenderIdx := by
      rw [hlen]; exact Nat.mod_eq_of_lt hsN
    have hsenders : (queueOp q m).1.senders =
        modifyAt q.lastSenderIdx (fun ch => ch ++ [m]) q.senders := by
      simp [queueOp, hc, sentChannelIdx, hmod]
    have hlast : (queueOp q m).1.lastSenderIdx = q.lastSenderIdx + 1 := by
      rw [queueOp_lastSenderIdx, hs1]
    have hc' : (queueOp q m).1.closed = false := by rw [queueOp_closed]; exact hc
    have hlen' : (queueOp q m).1.senders.length = N := by
      rw [queueOp_senders_length]; exact hlen
    have hle' : (queueOp q m).1.lastSenderIdx + rest.length ≤ N := by
      rw [hlast]; omega
    have hstep : submitSeq q (m :: rest) = submitSeq (queueOp q m).1 rest := rfl
    rw [hstep, ih (queueOp q m).1 hc' hlen' hle' j, hsenders, hlast,
      modifyAt_getElem]
    by_cases hj : j = q.lastSenderIdx
    · rw [hj, if_pos rfl, Option.map_map]
      refine congrArg₂ Option.map ?_ rfl
      funext ch
      simp [Function.comp, Nat.not_succ_le_self]
    · rw [if_neg hj]
      refine congrArg₂ Option.map ?_ rfl
      funext ch
      refine congrArg _ ?_
      by_cases hsj : q.lastSenderIdx ≤ j
      · have hsj1 : q.lastSenderIdx + 1 ≤ j := by omega
        rw [if_pos hsj1, if_pos hsj]
        have hidx : j - q.lastSenderIdx = (j - (q.lastSenderIdx + 1)) + 1 := by
          omega
        rw [hidx, List.getElem?_cons_succ]
      · rw [if_neg (by omega), if_neg hsj]

/-- C7 counterexample: the round-robin cursor is a wrapping `fetch_add` on a
`usize`, so on a fresh 3-worker queue the `2^64`-th call to `queue` (counting
from zero) uses channel `(2^64 mod 2^64) mod 3 = 0`, not `2^64 mod 3 = 1`:
the claimed law "the i-th submit goes to channel i mod N" fails at
`i = 2^64`. -/
theorem round_robin_cursor_wrap :
    sentChannelIdx (submitSeq (freshQueue Unit 3) (List.replicate (2 ^ 64) ())) ≠
      2 ^ 64 % 3 := by
  have h := submitSeq_state (List.replicate (2 ^ 64) ()) (freshQueue Unit 3)
    (by show (0 : Nat) < usizeMod; rw [usizeMod_eq]; omega)
  rw [sentChannelIdx, h.1, h.2.1]
  have hchan : (freshQueue Unit 3).senders.length = 3 := rfl
  have hidx : (freshQueue Unit 3).lastSenderIdx = 0 := rfl
  rw [hchan, hidx, List.length_replicate, Nat.zero_add, usizeMod_eq]
  norm_num

/-- C7 (amended): on a fresh queue with `worker_count = N` (`0 < N < 2^64`),
after `i` submits the next call to `queue` sends on channel
`(i mod 2^64) mod N`, which equals `i mod N` whenever `i < 2^64`; and
submitting exactly `N` messages places exactly one message on each of the `N`
worker channels (channel `j` holds exactly the `j`-th message). -/
theorem round_robin_dispatch (α : Type) (N : Nat) (hN : 0 < N)
    (hNW : N < usizeMod) :
    (∀ msgs : List α,
        sentChannelIdx (submitSeq (freshQueue α N) msgs) =
          (msgs.length % usizeMod) % N
        ∧ (msgs.length < usizeMod →
            sentChannelIdx (submitSeq (freshQueue α N) msgs) =
              msgs.length % N))
    ∧ ∀ msgs : List α, msgs.length = N → ∀ j : Nat, j < N →
        (submitSeq (freshQueue α N) msgs).senders[j]? =
          some (msgs[j]?.toList) := by
  constructor
  · intro msgs
    have h := submitSeq_state msgs (freshQueue α N)
      (by show (0 : Nat) < usizeMod; rw [usizeMod_eq]; omega)
    have hmain : sentChannelIdx (submitSeq (freshQueue α N) msgs) =
        (msgs.length % usizeMod) % N := by
      rw [sentChannelIdx, h.1, h.2.1]
      simp [freshQueue]
    exact ⟨hmain, fun hlt => by rw [hmain, Nat.mod_eq_of_lt hlt]⟩
  · intro msgs hlenN j hj
    have h := submit_fill N hNW msgs (freshQueue α N) rfl
      (by simp [freshQueue]) (by simp [freshQueue]; omega) j
    rw [h]
    show (List.replicate N ([] : List α))[j]?.map _ = _
    rw [List.getElem?_replicate, if_pos hj]
    simp [freshQueue]

/-- Concrete check of `round_robin_dispatch`: on a fresh 3-worker queue, after
two submits the next call targets channel 2, and submitting exactly three
messages puts the second message alone on channel 1. -/
theorem round_robin_dispatch_check :
    sentChannelIdx (submitSeq (freshQueue String 3) ["a", "b"]) = 2 ∧
    (submitSeq (freshQueue String 3) ["a", "b", "c"]).senders[1]? =
      some ["b"] := by
  have h := round_robin_dispatch String 3 (by decide) (by decide)
  constructor
  · rw [(h.1 ["a", "b"]).1]; decide
  · rw [h.2 ["a", "b", "c"] rfl 1 (by decide)]; rfl

/-- C10: a call to `queue` whose channel send fails (workers shut down)
returns an error, yet `pending` has already been advanced by the wrapping
`fetch_add(1)` and is not rolled back, and the message lands on no channel. -/
theorem failed_submit_leaks_pending (q : QueueModel α) (msg : α)
    (h : q.closed = true) :
    (queueOp q msg).2 = .error () ∧
    (queueOp q msg).1.pending = usizeSucc q.pending ∧
    (queueOp q msg).1.senders = q.senders := by
  simp [queueOp, h]

/-- Concrete check of `failed_submit_leaks_pending`. -/
theorem failed_submit_leaks_pending_check :
    (queueOp (⟨0, 41, true, [[]]⟩ : QueueModel Unit) ()).2 = .error () ∧
    (queueOp (⟨0, 41, true, [[]]⟩ : QueueModel Unit) ()).1.pending = 42 ∧
    (queueOp (⟨0, 41, true, [[]]⟩ : QueueModel Unit) ()).1.senders = [[]] := by
  have h := failed_submit_leaks_pending (⟨0, 41, true, [[]]⟩ : QueueModel Unit)
    () rfl
  exact ⟨h.1, by rw [h.2.1]; decide, h.2.2⟩

/-- C8 counterexample: for an inbox URL whose host is an IP address (here
`http://127.0.0.1:8001/inbox`), `Url::domain()` is `None`, so
`generate_request_headers` panics on its `expect` and produces no headers at
all — in particular no `Host` header with the URL's host — refuting the claim
for such inbox URLs. -/
theorem headers_panic_on_ip_host :
    generate_request_headers "Sun, 12 Oct 2025 00:00:00 GMT"
      ⟨"http", .ipv4 "127.0.0.1", some 8001, "/inbox"⟩ = none := rfl

/-- C8 (amended): for every inbox URL whose host is a domain name, the
generated headers contain a `Host` header whose value is that domain, with
`:port` appended iff an explicit port is present in the parsed inbox URL; for
IP-address hosts the function panics (`expect("read inbox domain")`) and
yields no headers. -/
theorem host_header_of_domain_inbox (now d : String) (u : Url)
    (h : u.host = .domain d) :
    generate_request_headers now u =
      some [("content-type", FEDERATION_CONTENT_TYPE),
            ("host", d ++ (match u.port with
              | some p => ":" ++ toString p
              | none => "")),
            ("date", now)] := by
  have hd : u.urlDomain = some d := by rw [Url.urlDomain, h]
  rw [generate_request_headers, hd]
  cases hp : u.port with
  | none => simp
  | some p => simp [String.append_assoc]

/-- Concrete check of `host_header_of_domain_inbox`: a domain host with an
explicit port, and the port suffix appears in the Host header. -/
theorem host_header_of_domain_inbox_check :
    generate_request_headers "Sun, 12 Oct 2025 00:00:00 GMT"
        ⟨"https", .domain "example.com", some 8443, "/inbox"⟩ =
      some [("content-type", "application/activity+json"),
            ("host", "example.com:8443"),
            ("date", "Sun, 12 Oct 2025 00:00:00 GMT")] := by
  rw [host_header_of_domain_inbox "Sun, 12 Oct 2025 00:00:00 GMT" "example.com"
    ⟨"https", .domain "example.com", some 8443, "/inbox"⟩ rfl]
  rfl

lemma mem_uniqueFirstAux [DecidableEq α] (a : α) :
    ∀ (l seen : List α), a ∈ uniqueFirstAux seen l ↔ a ∈ l ∧ a ∉ seen := by
  intro l
  induction l with
  | nil => intro seen; simp [uniqueFirstAux]
  | cons b bs ih =>
    intro seen
    rw [uniqueFirstAux]
    by_cases hb : b ∈ seen
    · rw [if_pos hb, ih]
      constructor
      · exact fun h => ⟨List.mem_cons_of_mem b h.1, h.2⟩
      · rintro ⟨hm, hns⟩
        rcases List.mem_cons.mp hm with h1 | h2
        · exact absurd (h1 ▸ hb) hns
        · exact ⟨h2, hns⟩
    · rw [if_neg hb]
      constructor
      · intro h
        rcases List.mem_cons.mp h with h1 | h2
        · exact ⟨h1 ▸ List.mem_cons_self b bs, h1 ▸ hb⟩
        · have := (ih (b :: seen)).mp h2
          refine ⟨List.mem_cons_of_mem b this.1, fun hs => this.2 ?_⟩
          exact List.mem_cons_of_mem b hs
      · rintro ⟨hm, hns⟩
        rcases List.mem_cons.mp hm with h1 | h2
        · exact h1 ▸ List.mem_cons_self a _
        · by_cases hab : a = b
          · exact hab ▸ List.mem_cons_self a _
          · refine List.mem_cons_of_mem b ((ih (b :: seen)).mpr ⟨h2, ?_⟩)
            intro hs
            rcases List.mem_cons.mp hs with h3 | h4
            · exact hab h3
            · exact hns h4

lemma mem_uniqueFirst [DecidableEq α] (a : α) (l : List α) :
    a ∈ uniqueFirst l ↔ a ∈ l := by
  rw [uniqueFirst, mem_uniqueFirstAux]
  simp

lemma nodup_uniqueFirstAux [DecidableEq α] :
    ∀ (l seen : List α), (uniqueFirstAux seen l).Nodup := by
  intro l
  induction l with
  | nil => intro seen; simp [uniqueFirstAux]
  | cons b bs ih =>
    intro seen
    rw [uniqueFirstAux]
    by_cases hb : b ∈ seen
    · rw [if_pos hb]; exact ih seen
    · rw [if_neg hb]
      refine List.nodup_cons.mpr ⟨?_, ih (b :: seen)⟩
      intro hmem
      exact ((mem_uniqueFirstAux b bs (b :: seen)).mp hmem).2
        (List.mem_cons_self b seen)

lemma nodup_uniqueFirst [DecidableEq α] (l : List α) :
    (uniqueFirst l).Nodup := nodup_uniqueFirstAux l []

lemma deliverLoop_all_ok (verify : Url → Bool)
    (submit : SendActivityTask → Except Unit Unit)
    (mk : Url → SendActivityTask) (hsub : ∀ t, submit t = .ok ()) :
    ∀ l : List Url,
      deliverLoop verify submit mk l = (.ok (), (l.filter verify).map mk) := by
  intro l
  induction l with
  | nil => rfl
  | cons i rest ih =>
    rw [deliverLoop]
    by_cases hv : verify i
    · rw [if_pos hv, hsub (mk i), ih]
      simp [hv]
    · rw [if_neg hv, ih]
      simp [hv]

/-- C9: `send_activity` returns the missing-private-key error when the
actor's `private_key_pem()` is absent, and the invalid-private-key error when
the PEM bytes fail to parse, and in both cases it returns before constructing
or submitting any `SendActivityTask` (the accepted-task list is empty). -/
theorem deliver_key_errors (actorId activityId : Url) (body : String)
    (parseKey : String → Except String Nat) (isLocal verify : Url → Bool)
    (submit : SendActivityTask → Except Unit Unit) (compat : Bool)
    (inboxes : List Url) :
    send_activity actorId activityId (.ok body) none parseKey isLocal verify
        submit compat inboxes = (.error (.missingPrivateKey actorId), [])
    ∧ ∀ (pem m : String), parseKey pem = .error m →
        send_activity actorId activityId (.ok body) (some pem) parseKey
          isLocal verify submit compat inboxes =
          (.error (.invalidPrivateKey m), []) := by
  refine ⟨rfl, fun pem m hp => ?_⟩
  have h0 : send_activity actorId activityId (.ok body) (some pem) parseKey
      isLocal verify submit compat inboxes =
      sendActivityWithKey actorId activityId body (parseKey pem) isLocal
        verify submit compat inboxes := rfl
  rw [h0]
  unfold sendActivityWithKey
  rw [hp]

/-- Concrete check of `deliver_key_errors`. -/
theorem deliver_key_errors_check :
    send_activity urlA urlA (.ok "x") none (fun _ => .ok 0) (fun _ => false)
        (fun _ => true) (fun _ => .ok ()) false [urlB] =
      (.error (.missingPrivateKey urlA), [])
    ∧ send_activity urlA urlA (.ok "x") (some "bad") (fun _ => .error "nope")
        (fun _ => false) (fun _ => true) (fun _ => .ok ()) false [urlB] =
      (.error (.invalidPrivateKey "nope"), []) := by
  have h := deliver_key_errors urlA urlA "x" (fun _ => .error "nope")
    (fun _ => false) (fun _ => true) (fun _ => .ok ()) false [urlB]
  exact ⟨rfl, h.2 "bad" "nope" rfl⟩

/-- C5: with a well-formed key and a queue accepting every submit,
`send_activity` creates exactly one `SendActivityTask` per unique inbox URL
that is not local and passes `verify_url_valid`, in order of first occurrence
(the task list is the first-occurrence deduplication of the input filtered by
the two predicates); duplicate, local, and verification-rejected inboxes
produce zero tasks and no error for the caller. -/
theorem deliver_one_task_per_unique_valid_inbox (actorId activityId : Url)
    (body pem : String) (key : Nat) (parseKey : String → Except String Nat)
    (isLocal verify : Url → Bool) (submit : SendActivityTask → Except Unit Unit)
    (compat : Bool) (inboxes : List Url) (hparse : parseKey pem = .ok key)
    (hsub : ∀ t, submit t = .ok ()) :
    (send_activity actorId activityId (.ok body) (some pem) parseKey isLocal
        verify submit compat inboxes).1 = .ok ()
    ∧ (send_activity actorId activityId (.ok body) (some pem) parseKey isLocal
        verify submit compat inboxes).2 =
        ((uniqueFirst inboxes).filter (fun i => !isLocal i && verify i)).map
          (fun i => ⟨actorId, activityId, body, i, key, compat⟩)
    ∧ ∀ u : Url,
        ((send_activity actorId activityId (.ok body) (some pem) parseKey
            isLocal verify submit compat inboxes).2.map
          SendActivityTask.inbox).count u =
          if u ∈ inboxes ∧ isLocal u = false ∧ verify u = true then 1
          else 0 := by
  have hsa : send_activity actorId activityId (.ok body) (some pem) parseKey
      isLocal verify submit compat inboxes =
      deliverLoop verify submit
        (fun i => ⟨actorId, activityId, body, i, key, compat⟩)
        ((uniqueFirst inboxes).filter (fun i => !isLocal i)) := by
    have h0 : send_activity actorId activityId (.ok body) (some pem) parseKey
        isLocal verify submit compat inboxes =
        sendActivityWithKey actorId activityId body (parseKey pem) isLocal
          verify submit compat inboxes := rfl
    rw [h0]
    unfold sendActivityWithKey
    rw [hparse]
  have hfilter : ((uniqueFirst inboxes).filter (fun i => !isLocal i)).filter
      verify = (uniqueFirst inboxes).filter (fun i => !isLocal i && verify i) := by
    rw [List.filter_filter]
    exact congrArg₂ List.filter
      (funext fun i => Bool.and_comm (verify i) (!isLocal i)) rfl
  have htasks : (send_activity actorId activityId (.ok body) (some pem)
      parseKey isLocal verify submit compat inboxes).2 =
      ((uniqueFirst inboxes).filter (fun i => !isLocal i && verify i)).map
        (fun i => ⟨actorId, activityId, body, i, key, compat⟩) := by
    rw [hsa, deliverLoop_all_ok verify submit _ hsub, hfilter]
  refine ⟨?_, htasks, ?_⟩
  · rw [hsa, deliverLoop_all_ok verify submit _ hsub]
  · intro u
    rw [htasks, List.map_map]
    have hid : (SendActivityTask.inbox ∘
        fun i => (⟨actorId, activityId, body, i, key, compat⟩ :
          SendActivityTask)) = id := rfl
    rw [hid, List.map_id]
    have hnd : ((uniqueFirst inboxes).filter
        (fun i => !isLocal i && verify i)).Nodup :=
      (nodup_uniqueFirst inboxes).filter _
    by_cases hq : u ∈ inboxes ∧ isLocal u = false ∧ verify u = true
    · rw [if_pos hq]
      have hmem : u ∈ (uniqueFirst inboxes).filter
          (fun i => !isLocal i && verify i) := by
        rw [List.mem_filter]
        exact ⟨(mem_uniqueFirst u inboxes).mpr hq.1,
          by rw [hq.2.1, hq.2.2]; rfl⟩
      exact List.count_eq_one_of_mem hnd hmem
    · rw [if_neg hq]
      refine List.count_eq_zero.mpr ?_
      intro hmem
      rw [List.mem_filter] at hmem
      have h1 : u ∈ inboxes := (mem_uniqueFirst u inboxes).mp hmem.1
      have h2 := hmem.2
      rw [Bool.and_eq_true, Bool.not_eq_true'] at h2
      exact hq ⟨h1, h2.1, h2.2⟩

/-- Concrete check of `deliver_one_task_per_unique_valid_inbox`: input
`[A, B, A, LOCAL, C]` with `B` rejected by verification yields exactly the
tasks for `A` then `C`. -/
theorem deliver_one_task_per_unique_valid_inbox_check :
    (send_activity urlA urlA (.ok "{}") (some "PEM") (fun _ => .ok 7)
        (fun u => u == urlLocal) (fun u => !(u == urlB)) (fun _ => .ok ()) true
        [urlA, urlB, urlA, urlLocal, urlC]).2 =
      [⟨urlA, urlA, "{}", urlA, 7, true⟩, ⟨urlA, urlA, "{}", urlC, 7, true⟩] := by
  have h := deliver_one_task_per_unique_valid_inbox urlA urlA "{}" "PEM" 7
    (fun _ => .ok 7) (fun u => u == urlLocal) (fun u => !(u == urlB))
    (fun _ => .ok ()) true [urlA, urlB, urlA, urlLocal, urlC] rfl
    (fun t => rfl)
  rw [h.2.1]
  rfl

lemma retryTraceFrom_eq_ok (action : Nat → Except E T × SignedRequest)
    (idx : Nat) (v : T) (req : SignedRequest) (h : action idx = (.ok v, req)) :
    ∀ rem, retryTraceFrom action idx rem = (.ok v, 1, [req]) := by
  intro rem
  cases rem with
  | zero => rw [retryTraceFrom]; rw [h]
  | succ r => rw [retryTraceFrom]; rw [h]

lemma retryTraceFrom_eq_error_zero (action : Nat → Except E T × SignedRequest)
    (idx : Nat) (e : E) (req : SignedRequest) (h : action idx = (.error e, req)) :
    retryTraceFrom action idx 0 = (.error e, 1, [req]) := by
  rw [retryTraceFrom]; rw [h]

lemma retryTraceFrom_eq_error_succ (action : Nat → Except E T × SignedRequest)
    (idx r : Nat) (e : E) (req : SignedRequest)
    (h : action idx = (.error e, req)) :
    retryTraceFrom action idx (r + 1) =
      ((retryTraceFrom action (idx + 1) r).1,
       (retryTraceFrom action (idx + 1) r).2.1 + 1,
       req :: (retryTraceFrom action (idx + 1) r).2.2) := by
  rw [retryTraceFrom]; rw [h]

lemma retryTraceFrom_trace (action : Nat → Except E T × SignedRequest) :
    ∀ (r idx : Nat),
      (retryTraceFrom action idx r).2.2 =
        (List.range (retryTraceFrom action idx r).2.1).map
          (fun j => (action (idx + j)).2) := by
  intro r
  induction r with
  | zero =>
    intro idx
    rcases h : action idx with ⟨res, req⟩
    cases res with
    | ok v =>
      rw [retryTraceFrom_eq_ok action idx v req h 0]
      rw [show List.range 1 = [0] from rfl]
      simp [h]
    | error e =>
      rw [retryTraceFrom_eq_error_zero action idx e req h]
      rw [show List.range 1 = [0] from rfl]
      simp [h]
  | succ r ih =>
    intro idx
    rcases h : action idx with ⟨res, req⟩
    cases res with
    | ok v =>
      rw [retryTraceFrom_eq_ok action idx v req h (r + 1)]
      rw [show List.range 1 = [0] from rfl]
      simp [h]
    | error e =>
      rw [retryTraceFrom_eq_error_succ action idx r e req h]
      simp only []
      rw [ih (idx + 1), List.range_succ_eq_map, List.map_cons, List.map_map]
      refine congrArg₂ _ ?_ ?_
      · simp [h]
      · refine List.map_congr_left ?_
        intro j _
        simp only [Function.comp, Nat.succ_eq_add_one]
        have harith : idx + 1 + j = idx + (j + 1) := by omega
        rw [harith]

/-- C6 counterexample: in the `src/activity_queue.rs` worker pipeline the
retried action is `sign_and_send` itself, so with a persistently failing peer
(HTTP 500) and default strategy the four attempts use four distinct signed
requests (signed at times 0, 1, 2, 3) — the signature is computed on every
attempt, not exactly once, and the later attempts do not reuse a clone of the
first signed request. -/
theorem worker_resigns_every_attempt :
    (MainQueue.runTask "https://a.example/inbox" "x" (fun i => i)
        (fun _ _ => .ok ⟨500, .ok "e"⟩) ⟨60, 3⟩).2.2 =
      [sign_request "https://a.example/inbox" "x" 0,
       sign_request "https://a.example/inbox" "x" 1,
       sign_request "https://a.example/inbox" "x" 2,
       sign_request "https://a.example/inbox" "x" 3]
    ∧ sign_request "https://a.example/inbox" "x" 1 ≠
        sign_request "https://a.example/inbox" "x" 0 :=
  ⟨rfl, by decide⟩

/-- C6 (amended): the sign-once-and-clone behaviour holds for
`src/queue/request.rs`: `sign_and_send` signs exactly once (at `clock 0`) and
every retry attempt sends that same signed request; in
`src/activity_queue.rs`, by contrast, the worker's retry factory re-invokes
`sign_and_send`, so attempt `i` sends a request freshly signed at `clock i`. -/
theorem sign_once_and_clone_behaviour (inboxText body : String)
    (clock : Nat → Nat)
    (exec : Nat → SignedRequest → Except TransportErr HttpResponse)
    (strategy : RetryStrategy) :
    (QueueRequest.sign_and_send inboxText body clock exec strategy).2.2 =
      List.replicate
        (QueueRequest.sign_and_send inboxText body clock exec strategy).2.1
        (sign_request inboxText body (clock 0))
    ∧ (MainQueue.runTask inboxText body clock exec strategy).2.2 =
      (List.range
          (MainQueue.runTask inboxText body clock exec strategy).2.1).map
        (fun i => sign_request inboxText body (clock i)) := by
  constructor
  · calc (QueueRequest.sign_and_send inboxText body clock exec strategy).2.2
        = (List.range
            (QueueRequest.sign_and_send inboxText body clock exec
              strategy).2.1).map
            (fun _ => sign_request inboxText body (clock 0)) := by
          rw [show (QueueRequest.sign_and_send inboxText body clock exec
              strategy).2.2 = (retryTraceFrom (fun i =>
                (QueueRequest.send
                  (exec i (sign_request inboxText body (clock 0))),
                 sign_request inboxText body (clock 0))) 0
                strategy.retries).2.2 from rfl,
            retryTraceFrom_trace]
          exact List.map_congr_left (fun j _ => rfl)
      _ = _ := by rw [List.map_const', List.length_range]
  · calc (MainQueue.runTask inboxText body clock exec strategy).2.2
        = (List.range
            (MainQueue.runTask inboxText body clock exec strategy).2.1).map
            (fun j => sign_request inboxText body (clock (0 + j))) := by
          rw [show (MainQueue.runTask inboxText body clock exec
              strategy).2.2 = (retryTraceFrom (fun i =>
                ((fun req => (MainQueue.send (exec i req), req))
                  (sign_request inboxText body (clock i)))) 0
                strategy.retries).2.2 from rfl,
            retryTraceFrom_trace]
          exact List.map_congr_left (fun j _ => rfl)
      _ = _ := by
          refine List.map_congr_left ?_
          intro j _
          rw [Nat.zero_add]

lemma recordOutcome_fields (st : Stats) (o : Except SendErr Unit) :
    (recordOutcome st o).completed_last_hour =
      (if exOk o then usizeSucc st.completed_last_hour
        else st.completed_last_hour)
    ∧ (recordOutcome st o).dead_last_hour =
      (if exOk o then st.dead_last_hour
        else usizeSucc st.dead_last_hour) := by
  cases o <;> simp [recordOutcome, exOk]

lemma workerStep_terminal (strategy : RetryStrategy)
    (ex : Nat → Except TransportErr HttpResponse) (st : Stats) :
    ((workerStep strategy ex st).1).completed_last_hour =
      (if exOk (retry (fun i => MainQueue.send (ex i)) strategy).1 then
        usizeSucc st.completed_last_hour else st.completed_last_hour)
    ∧ ((workerStep strategy ex st).1).dead_last_hour =
      (if exOk (retry (fun i => MainQueue.send (ex i)) strategy).1 then
        st.dead_last_hour else usizeSucc st.dead_last_hour) :=
  ⟨(recordOutcome_fields _ _).1, (recordOutcome_fields _ _).2⟩

lemma workerDrain_counts (strategy : RetryStrategy)
    (attempts : α → Nat → Except TransportErr HttpResponse) :
    ∀ (ch : List α) (st : Stats), st.completed_last_hour < usizeMod →
      st.dead_last_hour < usizeMod →
      (workerDrain strategy attempts st ch).completed_last_hour =
        (st.completed_last_hour + ch.countP (taskOk strategy attempts)) %
          usizeMod
      ∧ (workerDrain strategy attempts st ch).dead_last_hour =
        (st.dead_last_hour +
          ch.countP (fun t => !taskOk strategy attempts t)) % usizeMod := by
  intro ch
  induction ch with
  | nil =>
    intro st hc hd
    exact ⟨(Nat.mod_eq_of_lt hc).symm, (Nat.mod_eq_of_lt hd).symm⟩
  | cons t ts ih =>
    intro st hc hd
    have hstep : workerDrain strategy attempts st (t :: ts) =
        workerDrain strategy attempts (workerStep strategy (attempts t) st).1
          ts := rfl
    have hterm := workerStep_terminal strategy (attempts t) st
    have hcond : exOk (retry (fun i => MainQueue.send (attempts t i))
        strategy).1 = taskOk strategy attempts t := rfl
    rw [hcond] at hterm
    have hWpos : 0 < usizeMod := by rw [usizeMod_eq]; omega
    have hc' : ((workerStep strategy (attempts t) st).1).completed_last_hour <
        usizeMod := by
      rw [hterm.1]
      by_cases hok : taskOk strategy attempts t = true
      · rw [if_pos hok]; exact Nat.mod_lt _ hWpos
      · rw [if_neg hok]; exact hc
    have hd' : ((workerStep strategy (attempts t) st).1).dead_last_hour <
        usizeMod := by
      rw [hterm.2]
      by_cases hok : taskOk strategy attempts t = true
      · rw [if_pos hok]; exact hd
      · rw [if_neg hok]; exact Nat.mod_lt _ hWpos
    have hih := ih (workerStep strategy (attempts t) st).1 hc' hd'
    rw [hstep, hih.1, hih.2, hterm.1, hterm.2, List.countP_cons,
      List.countP_cons]
    cases hok : taskOk strategy attempts t
    · constructor
      · simp [hok]
      · simp [hok, usizeSucc, usizeMod_eq]
        all_goals omega
    · constructor
      · simp [hok, usizeSucc, usizeMod_eq]
        all_goals omega
      · simp [hok]

lemma foldl_drain_counts (strategy : RetryStrategy)
    (attempts : α → Nat → Except TransportErr HttpResponse) :
    ∀ (chs : List (List α)) (st : Stats), st.completed_last_hour < usizeMod →
      st.dead_last_hour < usizeMod →
      (chs.foldl (workerDrain strategy attempts) st).completed_last_hour =
        (st.completed_last_hour +
          (chs.map (List.countP (taskOk strategy attempts))).sum) % usizeMod
      ∧ (chs.foldl (workerDrain strategy attempts) st).dead_last_hour =
        (st.dead_last_hour +
          (chs.map (List.countP
            (fun t => !taskOk strategy attempts t))).sum) % usizeMod := by
  intro chs
  induction chs with
  | nil =>
    intro st hc hd
    exact ⟨(Nat.mod_eq_of_lt hc).symm, (Nat.mod_eq_of_lt hd).symm⟩
  | cons ch chs ih =>
    intro st hc hd
    have hdc := workerDrain_counts strategy attempts ch st hc hd
    have hWpos : 0 < usizeMod := by rw [usizeMod_eq]; omega
    have hc2 : (workerDrain strategy attempts st ch).completed_last_hour <
        usizeMod := by rw [hdc.1]; exact Nat.mod_lt _ hWpos
    have hd2 : (workerDrain strategy attempts st ch).dead_last_hour <
        usizeMod := by rw [hdc.2]; exact Nat.mod_lt _ hWpos
    have hih := ih (workerDrain strategy attempts st ch) hc2 hd2
    constructor
    · rw [List.foldl_cons, hih.1, hdc.1, List.map_cons, List.sum_cons,
        usizeMod_eq]
      omega
    · rw [List.foldl_cons, hih.2, hdc.2, List.map_cons, List.sum_cons,
        usizeMod_eq]
      omega

lemma sum_map_modifyAt (g : β → Nat) (f : β → β) (c : Nat)
    (hf : ∀ x, g (f x) = g x + c) :
    ∀ (l : List β) (i : Nat), i < l.length →
      ((modifyAt i f l).map g).sum = (l.map g).sum + c := by
  intro l
  induction l with
  | nil => intro i hi; simp at hi
  | cons a as ih =>
    intro i hi
    cases i with
    | zero =>
      show ((f a :: as).map g).sum = _
      rw [List.map_cons, List.sum_cons, List.map_cons, List.sum_cons, hf a]
      omega
    | succ j =>
      show ((a :: modifyAt j f as).map g).sum = _
      rw [List.map_cons, List.sum_cons, List.map_cons, List.sum_cons,
        ih j (by simpa using hi)]
      omega

lemma sum_countP_submitSeq (p : α → Bool) :
    ∀ (msgs : List α) (q : QueueModel α), q.closed = false →
      0 < q.senders.length →
      (((submitSeq q msgs).senders).map (List.countP p)).sum =
        (q.senders.map (List.countP p)).sum + msgs.countP p := by
  intro msgs
  induction msgs with
  | nil => intro q _ _; simp [submitSeq]
  | cons m rest ih =>
    intro q hc hlen
    have hstep : submitSeq q (m :: rest) = submitSeq (queueOp q m).1 rest := rfl
    have hc' : (queueOp q m).1.closed = false := by
      rw [queueOp_closed]; exact hc
    have hlen' : 0 < (queueOp q m).1.senders.length := by
      rw [queueOp_senders_length]; exact hlen
    have hsenders : (queueOp q m).1.senders =
        modifyAt (sentChannelIdx q) (fun ch => ch ++ [m]) q.senders := by
      simp [queueOp, hc]
    have hidx : sentChannelIdx q < q.senders.length := by
      rw [sentChannelIdx]; exact Nat.mod_lt _ hlen
    have happ : ∀ ch : List α,
        List.countP p (ch ++ [m]) = List.countP p ch +
          (if p m then 1 else 0) := by
      intro ch
      rw [List.countP_append]
      congr 1
      simp [List.countP_cons]
    rw [hstep, ih (queueOp q m).1 hc' hlen', hsenders,
      sum_map_modifyAt (List.countP p) (fun ch => ch ++ [m])
        (if p m then 1 else 0) happ q.senders (sentChannelIdx q) hidx,
      List.countP_cons]
    omega

lemma countP_add_countP_not (p : α → Bool) :
    ∀ l : List α, l.countP p + l.countP (fun a => !p a) = l.length := by
  intro l
  induction l with
  | nil => rfl
  | cons a as ih =>
    rw [List.countP_cons, List.countP_cons]
    cases h : p a <;> simp [h] <;> omega

/-- C4: for every run in which `n` tasks are submitted to a fresh queue with
at least one worker and shutdown then completes without an hourly reset
firing, the returned stats satisfy
`completed_last_hour + dead_last_hour = n`: every submitted task is drained
and counted in exactly one of the two terminal counters. -/
theorem shutdown_stats_partition {α : Type} (N : Nat)
    (strategy : RetryStrategy)
    (attempts : α → Nat → Except TransportErr HttpResponse) (tasks : List α)
    (hN : 0 < N) (hn : tasks.length < usizeMod) :
    (runStats N strategy attempts tasks).completed_last_hour +
      (runStats N strategy attempts tasks).dead_last_hour = tasks.length := by
  have hfl : 0 < (freshQueue α N).senders.length := by
    show 0 < (List.replicate N ([] : List α)).length
    rw [List.length_replicate]
    exact hN
  have hW0 : (0 : Nat) < usizeMod := by rw [usizeMod_eq]; omega
  have hfold := foldl_drain_counts strategy attempts
    ((submitSeq (freshQueue α N) tasks).senders)
    { pending := (submitSeq (freshQueue α N) tasks).pending
      running := 0
      dead_last_hour := 0
      completed_last_hour := 0 } hW0 hW0
  have hok := sum_countP_submitSeq (taskOk strategy attempts) tasks
    (freshQueue α N) rfl hfl
  have herr := sum_countP_submitSeq (fun t => !taskOk strategy attempts t)
    tasks (freshQueue α N) rfl hfl
  have hzero : ∀ p : α → Bool,
      ((freshQueue α N).senders.map (List.countP p)).sum = 0 := by
    intro p
    show ((List.replicate N ([] : List α)).map (List.countP p)).sum = 0
    rw [List.map_replicate]
    simp
  rw [hzero] at hok herr
  have hcomp : (runStats N strategy attempts tasks).completed_last_hour =
      tasks.countP (taskOk strategy attempts) := by
    rw [runStats, hfold.1, hok]
    simp only [Nat.zero_add]
    exact Nat.mod_eq_of_lt
      (lt_of_le_of_lt (List.countP_le_length _) hn)
  have hdead : (runStats N strategy attempts tasks).dead_last_hour =
      tasks.countP (fun t => !taskOk strategy attempts t) := by
    rw [runStats, hfold.2, herr]
    simp only [Nat.zero_add]
    exact Nat.mod_eq_of_lt
      (lt_of_le_of_lt (List.countP_le_length _) hn)
  rw [hcomp, hdead, countP_add_countP_not]

/-- Concrete check of `shutdown_stats_partition`: three tasks on a 2-worker
queue, two reaching a 200 peer and one dying against a permanent 500. -/
theorem shutdown_stats_partition_check :
    (runStats 2 ⟨1, 1⟩
        (fun (b : Bool) (_ : Nat) =>
          if b then Except.ok (⟨200, .ok ""⟩ : HttpResponse)
          else Except.ok ⟨500, .ok "err"⟩)
        [true, false, true]).completed_last_hour +
      (runStats 2 ⟨1, 1⟩
        (fun (b : Bool) (_ : Nat) =>
          if b then Except.ok (⟨200, .ok ""⟩ : HttpResponse)
          else Except.ok ⟨500, .ok "err"⟩)
        [true, false, true]).dead_last_hour = 3 := by
  have h := shutdown_stats_partition 2 ⟨1, 1⟩
    (fun (b : Bool) (_ : Nat) =>
      if b then Except.ok (⟨200, .ok ""⟩ : HttpResponse)
      else Except.ok ⟨500, .ok "err"⟩)
    [true, false, true] (by decide) (by decide)
  exact h
